import Mathlib

/-!
Verification of the per-probe monitoring pipeline of `monitoramento-rede`.

The Rust sources under `src/codagem/src` are shallowly embedded:

* `types.rs` — the data model (`MetricStatus`, `MetricType`,
  `ConnectivityMetric`, `OutageEvent`, `TargetWarmupState`);
* `consensus.rs` — `ConsensusState` with `validate_params` and `update`;
* `warmup.rs` — the warm-up streak gate;
* `ping.rs` — the per-target attempt loop of `ping_targets` and its
  status/packet-loss classification;
* `scheduler.rs` — the `WaitingForInternet` branch of `run_scheduler`.

Modelling conventions: `chrono::DateTime<Utc>` is an `Int` counting
milliseconds, `Duration::num_seconds` is truncating division by 1000
(`Int.tdiv`), the `as i32` cast is a two's-complement wrap (`wrap32`),
Rust `HashMap` tallies become occurrence counts over lists with
deduplicated key lists, and effectful collaborators (the `ping`
subprocess, the storage gateway) are oracles / insertion logs.
-/

/-- Status of one measurement, `MetricStatus` in `types.rs`. -/
inductive MetricStatus where
  | up
  | down
  | degraded
  | timeout
deriving DecidableEq, Repr

/-- Kind of one measurement, `MetricType` in `types.rs`. -/
inductive MetricType where
  | pingIpv4
  | pingIpv6
  | tcpIpv4
  | tcpIpv6
  | httpIpv4
  | httpIpv6
  | dnsIpv4
  | dnsIpv6
deriving DecidableEq, Repr

/-- Address family of a target's `IpAddr` (the payload is irrelevant to the
claims, only the `is_ipv6` distinction made by `ping.rs` is kept). -/
inductive IpFamily where
  | v4
  | v6
deriving DecidableEq, Repr

/-- One measurement of one target in one cycle, `ConnectivityMetric` in
`types.rs`.  `response_time_ms` is `f64` in the source; it is modelled over
`Int` since every claim only inspects its presence, never its value. -/
structure ConnectivityMetric where
  id : Int
  cycle_id : Int
  probe_id : Int
  target_id : Int
  timestamp : Int
  metric_type : MetricType
  status : MetricStatus
  response_time_ms : Option Int
  packet_loss_percent : Option Int
  error_message : Option String
deriving DecidableEq, Repr

/-- The structured `details` payload built by `ConsensusState::update`
(`json!({fail_threshold, consensus, history_len, down_counts})`); the
`down_counts` map is kept as its list of key/count entries. -/
structure OutageDetails where
  fail_threshold : Nat
  consensus : Nat
  history_len : Nat
  down_counts : List (Int × Nat)
deriving DecidableEq, Repr

/-- An outage event, `OutageEvent` in `types.rs`. -/
structure OutageEvent where
  id : Int
  start_time : Int
  end_time : Option Int
  duration_seconds : Option Int
  reason : Option String
  affected_targets : List Int
  affected_probes : Option (List Int)
  consensus_level : Option Int
  details : Option OutageDetails
deriving DecidableEq, Repr

/-- The consensus detector state, `ConsensusState` in `consensus.rs`.  The
`VecDeque` window is a list whose head is the oldest cycle. -/
structure ConsensusState where
  history : List (List ConnectivityMetric)
  fail_threshold : Nat
  consensus : Nat
  current_outage : Option OutageEvent
  probe_id : Option Int
deriving DecidableEq, Repr

/-- Constructor `ConsensusState::new`. -/
def ConsensusState.new (fail_threshold consensus : Nat) (probe_id : Option Int) :
    ConsensusState :=
  { history := [], fail_threshold, consensus, current_outage := none, probe_id }

/-- Validator `ConsensusState::validate_params`.  It takes `&self` in the
source, so the state is left unchanged by construction. -/
def ConsensusState.validate_params (s : ConsensusState) (num_targets : Nat) :
    Except String Unit :=
  if s.fail_threshold = 0 then
    Except.error "fail_threshold deve ser maior que zero"
  else if s.consensus = 0 then
    Except.error "consensus deve ser maior que zero"
  else if num_targets < s.consensus then
    Except.error ("consensus (" ++ toString s.consensus ++
      ") não pode ser maior que o número de targets monitorados (" ++
      toString num_targets ++ ")")
  else
    Except.ok ()

/-- Window maintenance of `ConsensusState::update`: pop the front when the
window already holds `fail_threshold` cycles, then push the new cycle. -/
def newHistory (history : List (List ConnectivityMetric)) (fail_threshold : Nat)
    (cycle_results : List ConnectivityMetric) : List (List ConnectivityMetric) :=
  (if history.length = fail_threshold then history.drop 1 else history) ++ [cycle_results]

/-- Does a metric count as a failure for the tally (`Down || Timeout`)? -/
def isFail (m : ConnectivityMetric) : Bool :=
  m.status == MetricStatus.down || m.status == MetricStatus.timeout

/-- Target ids of the failing metrics of one cycle, in order. -/
def cycleFailIds (cycle : List ConnectivityMetric) : List Int :=
  (cycle.filter isFail).map ConnectivityMetric.target_id

/-- Target ids of all failing metrics across the window, in order. -/
def failIds : List (List ConnectivityMetric) → List Int
  | [] => []
  | c :: rest => cycleFailIds c ++ failIds rest

/-- Entry of the `down_counts` `HashMap` for one target: how many failing
metrics the window holds for it. -/
def downCount (history : List (List ConnectivityMetric)) (t : Int) : Nat :=
  (failIds history).count t

/-- Key set of the `down_counts` `HashMap`: each failing target id once.
`HashMap` iteration order is unspecified in Rust; the deduplicated list is a
deterministic representative, and the claims only use membership and length. -/
def downKeys (history : List (List ConnectivityMetric)) : List Int :=
  (failIds history).dedup

/-- The `majority_down` quorum set of `ConsensusState::update`: failing
targets whose tally equals `fail_threshold` exactly. -/
def majorityDown (history : List (List ConnectivityMetric)) (fail_threshold : Nat) :
    List Int :=
  (downKeys history).filter (fun t => downCount history t == fail_threshold)

/-- The `down_counts` map as the entry list stored into the details payload. -/
def downCountsList (history : List (List ConnectivityMetric)) : List (Int × Nat) :=
  (downKeys history).map (fun t => (t, downCount history t))

/-- Truncating division modelling `chrono::Duration::num_seconds` on a
duration given in milliseconds (chrono rounds toward zero). -/
def numSeconds (ms : Int) : Int :=
  ms.tdiv 1000

/-- Two's-complement wrap of the Rust `as i32` cast. -/
def wrap32 (x : Int) : Int :=
  (x + 2 ^ 31) % 2 ^ 32 - 2 ^ 31

/-- The open event built by `ConsensusState::update` when the quorum is
reached and no outage is open. -/
def openEvent (s : ConsensusState) (h : List (List ConnectivityMetric))
    (majority_down : List Int) (cycle_timestamp : Int) : OutageEvent :=
  { id := 0
    start_time := cycle_timestamp
    end_time := none
    duration_seconds := none
    reason := some "consensus_reached"
    affected_targets := majority_down
    affected_probes := match s.probe_id with
      | some n => some [n]
      | none => none
    consensus_level := some (wrap32 (majority_down.length : Int))
    details := some
      { fail_threshold := s.fail_threshold
        consensus := s.consensus
        history_len := h.length
        down_counts := downCountsList h } }

/-- The close performed by `ConsensusState::update` when the quorum is lost
while an outage is open: set `end_time`, derive `duration_seconds` via
`num_seconds` and the `as i32` cast. -/
def closeEvent (e : OutageEvent) (cycle_timestamp : Int) : OutageEvent :=
  { e with
    end_time := some cycle_timestamp
    duration_seconds := some (wrap32 (numSeconds (cycle_timestamp - e.start_time))) }

/-- Transition `ConsensusState::update` of `consensus.rs`, returning the new
state together with the emitted event (the source mutates `&mut self`). -/
def ConsensusState.update (s : ConsensusState) (cycle_results : List ConnectivityMetric)
    (cycle_timestamp : Int) : ConsensusState × Option OutageEvent :=
  let h := newHistory s.history s.fail_threshold cycle_results
  let majority_down := majorityDown h s.fail_threshold
  if s.consensus ≤ majority_down.length then
    match s.current_outage with
    | none =>
        let event := openEvent s h majority_down cycle_timestamp
        ({ s with history := h, current_outage := some event }, some event)
    | some _ => ({ s with history := h }, none)
  else
    match s.current_outage with
    | some e => ({ s with history := h, current_outage := none },
        some (closeEvent e cycle_timestamp))
    | none => ({ s with history := h }, none)

/-- Outputs of a sequence of `update` calls on one detector. -/
def runUpdates (s : ConsensusState) : List (List ConnectivityMetric × Int) →
    List (Option OutageEvent)
  | [] => []
  | (c, t) :: rest => (s.update c t).2 :: runUpdates (s.update c t).1 rest

/-- State of the detector after a sequence of `update` calls. -/
def stateAfter (s : ConsensusState) : List (List ConnectivityMetric × Int) →
    ConsensusState
  | [] => s
  | (c, t) :: rest => stateAfter (s.update c t).1 rest

/-- Concrete metric used by counterexamples and witnesses. -/
def mkMetric (t : Int) (st : MetricStatus) : ConnectivityMetric :=
  { id := 0, cycle_id := 0, probe_id := 0, target_id := t, timestamp := 0
    metric_type := MetricType.pingIpv4, status := st
    response_time_ms := none, packet_loss_percent := none, error_message := none }

/-- Contribution of one cycle to a target's tally. -/
def cycleDown (c : List ConnectivityMetric) (t : Int) : Nat :=
  (cycleFailIds c).count t

/-- The target has a Down or Timeout metric in the cycle. -/
def cycleFails (t : Int) (c : List ConnectivityMetric) : Prop :=
  ∃ m ∈ c, m.target_id = t ∧ (m.status = MetricStatus.down ∨ m.status = MetricStatus.timeout)

/-- Every metric of the cycle reports Up. -/
def cycleAllUp (c : List ConnectivityMetric) : Prop :=
  ∀ m ∈ c, m.status = MetricStatus.up

/-- Warm-up gate state, `TargetWarmupState` in `warmup.rs` (duplicated in
`types.rs`).  The `success_streak` `HashMap` is a total function: an absent
entry behaves as the 0 it is created at by `or_insert(0)` / `insert(_, 0)`. -/
structure TargetWarmupState where
  success_streak : Int → Nat
  required_streak : Nat

/-- Transition `TargetWarmupState::update`: on success increment the target's
streak (creating the entry at 0 first), otherwise reset it to 0; return
whether the resulting streak has reached `required_streak`. -/
def TargetWarmupState.update (s : TargetWarmupState) (target_id : Int) (is_success : Bool) :
    Bool × TargetWarmupState :=
  let streak : Int → Nat := fun x =>
    if x = target_id then (if is_success then s.success_streak target_id + 1 else 0)
    else s.success_streak x
  (decide (s.required_streak ≤ streak target_id), { s with success_streak := streak })

/-- Warm-up state after `k` further successful updates for one target. -/
def afterSuccesses (s : TargetWarmupState) (target_id : Int) : Nat → TargetWarmupState
  | 0 => s
  | k + 1 => ((afterSuccesses s target_id k).update target_id true).2

/-- Outcome of one `ping` attempt of the per-target loop in `ping_targets`
(`ping.rs`): a successful echo with its round-trip time, a non-success exit
or spawn error carrying an error string, or an elapsed attempt deadline. -/
inductive PingAttempt where
  | success (rtt : Int)
  | failed (err : String)
  | timedOut (err : String)
deriving DecidableEq, Repr

/-- The attempt is a success. -/
def isSuccessAttempt : PingAttempt → Bool
  | PingAttempt.success _ => true
  | _ => false

/-- The attempt hit the per-attempt deadline. -/
def isTimeoutAttempt : PingAttempt → Bool
  | PingAttempt.timedOut _ => true
  | _ => false

/-- Accumulator of the per-target loop of `ping_targets`: `success`,
`total_time`, `timeout_count` and `last_error`. -/
structure PingTally where
  success : Nat
  total_time : Int
  timeout_count : Nat
  last_error : Option String
deriving DecidableEq, Repr

/-- One iteration of the attempt loop of `ping_targets`. -/
def stepAttempt (acc : PingTally) : PingAttempt → PingTally
  | PingAttempt.success rtt =>
      { acc with success := acc.success + 1, total_time := acc.total_time + rtt }
  | PingAttempt.failed e => { acc with last_error := some e }
  | PingAttempt.timedOut e =>
      { acc with last_error := some e, timeout_count := acc.timeout_count + 1 }

/-- The attempt loop of `ping_targets` over the listed outcomes. -/
def runAttempts (acc : PingTally) : List PingAttempt → PingTally
  | [] => acc
  | a :: rest => runAttempts (stepAttempt acc a) rest

/-- The metric built for one target by `ping_targets` after its
`ping_count = attempts.length` attempts: the status classification, the mean
RTT when any attempt succeeded (`f64` mean modelled over `Int`; the claims
only inspect presence), the packet-loss formula and the preserved last
error. -/
def pingMetricOf (probe_id target_id : Int) (family : IpFamily) (cycle_id ts : Int)
    (attempts : List PingAttempt) : ConnectivityMetric :=
  let tally := runAttempts ⟨0, 0, 0, none⟩ attempts
  let ping_count := attempts.length
  { id := 0
    cycle_id := cycle_id
    probe_id := probe_id
    target_id := target_id
    timestamp := ts
    metric_type := match family with
      | IpFamily.v4 => MetricType.pingIpv4
      | IpFamily.v6 => MetricType.pingIpv6
    status :=
      if tally.timeout_count = ping_count then MetricStatus.timeout
      else if tally.success = ping_count then MetricStatus.up
      else if 0 < tally.success then MetricStatus.degraded
      else MetricStatus.down
    response_time_ms :=
      if 0 < tally.success then some (tally.total_time / tally.success) else none
    packet_loss_percent := some ((100 : Int) - ((tally.success * 100) / ping_count : Nat))
    error_message := tally.last_error }

/-- A monitored endpoint (`Target` in `types.rs`), reduced to the fields the
pipeline reads: its id and the address family driving the metric type. -/
structure Target where
  id : Int
  family : IpFamily
deriving DecidableEq, Repr

/-- A vantage point (`Probe` in `types.rs`), reduced to its id. -/
structure Probe where
  id : Int
deriving DecidableEq, Repr

/-- The whole of `ping_targets`: one metric per listed target, the per-target
subprocess attempts supplied by the oracle `attemptsOf`. -/
def pingTargets (targets : List Target) (probe : Probe) (attemptsOf : Int → List PingAttempt)
    (cycle_id ts : Int) : List ConnectivityMetric :=
  targets.map (fun tg => pingMetricOf probe.id tg.id tg.family cycle_id ts (attemptsOf tg.id))

/-- Log of the storage gateway calls issued by the scheduler: every
`insert_connectivity_metric` and `insert_outage_event` attempt, in order. -/
structure StoreLog where
  metricInserts : List ConnectivityMetric
  outageInserts : List OutageEvent
deriving DecidableEq, Repr

/-- One `WaitingForInternet` tick of `run_scheduler` (`scheduler.rs`): run
`ping_targets` over the full target list with the sentinel cycle id 0, feed
the metric vector to the consensus detector, and persist any emitted outage
event.  The branch issues no `insert_connectivity_metric` call. -/
def waitingTick (targets : List Target) (probe : Probe) (attemptsOf : Int → List PingAttempt)
    (ts : Int) (cs : ConsensusState) (store : StoreLog) : ConsensusState × StoreLog :=
  let metrics := pingTargets targets probe attemptsOf 0 ts
  match (cs.update metrics ts).2 with
  | some ev =>
      ((cs.update metrics ts).1, { store with outageInserts := store.outageInserts ++ [ev] })
  | none => ((cs.update metrics ts).1, store)

/-- Case analysis of `update`: quorum reached, no open outage — open. -/
theorem update_eq_open (s : ConsensusState) (c : List ConnectivityMetric) (ts : Int)
    (h1 : s.consensus ≤ (majorityDown (newHistory s.history s.fail_threshold c) s.fail_threshold).length)
    (h2 : s.current_outage = none) :
    s.update c ts =
      ({ s with
          history := newHistory s.history s.fail_threshold c
          current_outage := some (openEvent s (newHistory s.history s.fail_threshold c)
            (majorityDown (newHistory s.history s.fail_threshold c) s.fail_threshold) ts) },
       some (openEvent s (newHistory s.history s.fail_threshold c)
         (majorityDown (newHistory s.history s.fail_threshold c) s.fail_threshold) ts)) := by
  simp only [ConsensusState.update, h2, if_pos h1]

/-- Case analysis of `update`: quorum reached while an outage is open — no
duplicate emission. -/
theorem update_eq_skip (s : ConsensusState) (c : List ConnectivityMetric) (ts : Int) (e : OutageEvent)
    (h1 : s.consensus ≤ (majorityDown (newHistory s.history s.fail_threshold c) s.fail_threshold).length)
    (h2 : s.current_outage = some e) :
    s.update c ts = ({ s with history := newHistory s.history s.fail_threshold c }, none) := by
  simp only [ConsensusState.update, h2, if_pos h1]

/-- Case analysis of `update`: quorum lost while an outage is open — close. -/
theorem update_eq_close (s : ConsensusState) (c : List ConnectivityMetric) (ts : Int) (e : OutageEvent)
    (h1 : ¬ s.consensus ≤ (majorityDown (newHistory s.history s.fail_threshold c) s.fail_threshold).length)
    (h2 : s.current_outage = some e) :
    s.update c ts =
      ({ s with
          history := newHistory s.history s.fail_threshold c
          current_outage := none },
       some (closeEvent e ts)) := by
  simp only [ConsensusState.update, h2, if_neg h1]

/-- Case analysis of `update`: no quorum and no open outage — nothing. -/
theorem update_eq_none (s : ConsensusState) (c : List ConnectivityMetric) (ts : Int)
    (h1 : ¬ s.consensus ≤ (majorityDown (newHistory s.history s.fail_threshold c) s.fail_threshold).length)
    (h2 : s.current_outage = none) :
    s.update c ts = ({ s with history := newHistory s.history s.fail_threshold c }, none) := by
  simp only [ConsensusState.update, h2, if_neg h1]

/-- For a non-negative duration below the `i32` range, the truncated
`num_seconds` cast back through `as i32` is exactly the floor of the
duration in whole seconds. -/
theorem wrap32_numSeconds_floor (d : Int) (h0 : 0 ≤ d) (h1 : d < 2 ^ 31 * 1000) :
    wrap32 (numSeconds d) = d / 1000 := by
  have hq0 : 0 ≤ d / 1000 := Int.ediv_nonneg h0 (by norm_num)
  have hqlt : d / 1000 < 2 ^ 31 := (Int.ediv_lt_iff_lt_mul (by norm_num)).mpr h1
  have ht : numSeconds d = d / 1000 := Int.tdiv_eq_ediv h0 (by norm_num)
  rw [ht, wrap32]
  have hmod : (d / 1000 + 2 ^ 31) % 2 ^ 32 = d / 1000 + 2 ^ 31 :=
    Int.emod_eq_of_lt (by omega) (by omega)
  omega

/-- The `as i32` cast is the identity on the non-negative half of the `i32`
range. -/
theorem wrap32_eq_of_lt (x : Int) (h0 : 0 ≤ x) (h1 : x < 2 ^ 31) : wrap32 x = x := by
  rw [wrap32]
  have hmod : (x + 2 ^ 31) % 2 ^ 32 = x + 2 ^ 31 := Int.emod_eq_of_lt (by omega) (by omega)
  omega

/-- Claim C1: for every call to `ConsensusState.update` with quorum set `M`
computed from the window — if `|M| ≥ consensus` and no outage is open, the
call stores and returns a new open event with `start_time = cycle_timestamp`,
reason `"consensus_reached"`, `affected_targets = M`, and
`consensus_level = |M|` through the `as i32` wrap, which is the identity
whenever `|M| < 2 ^ 31`, with absent `end_time`/`duration_seconds`; if `|M| ≥ consensus` and an outage
is open it returns `none`; if `|M| < consensus` and an outage is open it
clears the slot and returns that event closed at `cycle_timestamp` with
`duration_seconds` the floor of the elapsed time in whole seconds; otherwise
it returns `none`. -/
theorem consensus_update_decision (s : ConsensusState) (cycle : List ConnectivityMetric) (ts : Int) :
    (s.consensus ≤ (majorityDown (newHistory s.history s.fail_threshold cycle) s.fail_threshold).length →
      s.current_outage = none →
      ∃ ev, (s.update cycle ts).2 = some ev ∧
        (s.update cycle ts).1.current_outage = some ev ∧
        ev.start_time = ts ∧
        ev.reason = some "consensus_reached" ∧
        ev.affected_targets = majorityDown (newHistory s.history s.fail_threshold cycle) s.fail_threshold ∧
        ev.consensus_level = some (wrap32 ((majorityDown (newHistory s.history s.fail_threshold cycle) s.fail_threshold).length : Int)) ∧
        (((majorityDown (newHistory s.history s.fail_threshold cycle) s.fail_threshold).length : Int) < 2 ^ 31 →
          ev.consensus_level = some ((majorityDown (newHistory s.history s.fail_threshold cycle) s.fail_threshold).length : Int)) ∧
        ev.end_time = none ∧
        ev.duration_seconds = none) ∧
    (∀ e, s.consensus ≤ (majorityDown (newHistory s.history s.fail_threshold cycle) s.fail_threshold).length →
      s.current_outage = some e → (s.update cycle ts).2 = none) ∧
    (∀ e, (majorityDown (newHistory s.history s.fail_threshold cycle) s.fail_threshold).length < s.consensus →
      s.current_outage = some e →
      (s.update cycle ts).1.current_outage = none ∧
      (s.update cycle ts).2 = some (closeEvent e ts) ∧
      (closeEvent e ts).end_time = some ts ∧
      (e.start_time ≤ ts → ts - e.start_time < 2 ^ 31 * 1000 →
        (closeEvent e ts).duration_seconds = some ((ts - e.start_time) / 1000))) ∧
    ((majorityDown (newHistory s.history s.fail_threshold cycle) s.fail_threshold).length < s.consensus →
      s.current_outage = none → (s.update cycle ts).2 = none) := by
  refine ⟨?_, ?_, ?_, ?_⟩
  · intro h1 h2
    refine ⟨openEvent s (newHistory s.history s.fail_threshold cycle)
      (majorityDown (newHistory s.history s.fail_threshold cycle) s.fail_threshold) ts,
      ?_, ?_, rfl, rfl, rfl, rfl, ?_, rfl, rfl⟩
    · rw [update_eq_open s cycle ts h1 h2]
    · rw [update_eq_open s cycle ts h1 h2]
    · intro hlt
      show some (wrap32 ((majorityDown (newHistory s.history s.fail_threshold cycle)
        s.fail_threshold).length : Int)) = _
      rw [wrap32_eq_of_lt _ (by omega) hlt]
  · intro e h1 h2
    rw [update_eq_skip s cycle ts e h1 h2]
  · intro e h1 h2
    have hc := update_eq_close s cycle ts e (by omega) h2
    refine ⟨?_, ?_, rfl, ?_⟩
    · rw [hc]
    · rw [hc]
    · intro ha hb
      show some (wrap32 (numSeconds (ts - e.start_time))) = _
      rw [wrap32_numSeconds_floor _ (by omega) hb]
  · intro h1 h2
    rw [update_eq_none s cycle ts (by omega) h2]

/-- Witness for C1: a fresh detector with `W = Q = 1` opens on one Down
metric, and a detector holding an open outage closes it on quorum loss with
`duration_seconds = (5000 − 0) / 1000` whole seconds. -/
theorem consensus_update_decision_witness :
    (∃ ev, ((ConsensusState.new 1 1 none).update [mkMetric 1 MetricStatus.down] 0).2 = some ev ∧
      ((ConsensusState.new 1 1 none).update [mkMetric 1 MetricStatus.down] 0).1.current_outage = some ev ∧
      ev.start_time = 0 ∧ ev.reason = some "consensus_reached" ∧ ev.consensus_level = some 1 ∧
      ev.end_time = none) ∧
    (((⟨[[mkMetric 1 MetricStatus.down]], 1, 1,
        some ⟨0, 0, none, none, some "consensus_reached", [1], none, some 1, none⟩, none⟩ :
        ConsensusState).update [mkMetric 1 MetricStatus.up] 5000).2 =
      some (closeEvent ⟨0, 0, none, none, some "consensus_reached", [1], none, some 1, none⟩ 5000) ∧
     (closeEvent (⟨0, 0, none, none, some "consensus_reached", [1], none, some 1, none⟩ : OutageEvent)
        5000).duration_seconds = some ((5000 - 0) / 1000)) := by
  constructor
  · obtain ⟨ev, ha, hb, hc, hd, he, hf, hf2, hg, hh⟩ :=
      (consensus_update_decision (ConsensusState.new 1 1 none) [mkMetric 1 MetricStatus.down] 0).1
        (by decide) rfl
    exact ⟨ev, ha, hb, hc, hd, (hf2 (by decide)).trans (by decide), hg⟩
  · obtain ⟨ha, hb, hc, hd⟩ :=
      (consensus_update_decision
        (⟨[[mkMetric 1 MetricStatus.down]], 1, 1,
          some ⟨0, 0, none, none, some "consensus_reached", [1], none, some 1, none⟩, none⟩ :
          ConsensusState) [mkMetric 1 MetricStatus.up] 5000).2.2.1
        ⟨0, 0, none, none, some "consensus_reached", [1], none, some 1, none⟩ (by decide) rfl
    refine ⟨hb, ?_⟩
    have := hd (by decide) (by decide)
    simpa using this

/-- Claim C9: `validate_params` errors exactly when `fail_threshold = 0`,
`consensus = 0` or `consensus` exceeds the target count, returns `Ok`
otherwise, and (taking `&self`) leaves the state unchanged by construction. -/
theorem validate_params_spec (s : ConsensusState) (n : Nat) :
    ((∃ msg, s.validate_params n = Except.error msg) ↔
      (s.fail_threshold = 0 ∨ s.consensus = 0 ∨ n < s.consensus)) ∧
    (s.validate_params n = Except.ok () ↔
      ¬ (s.fail_threshold = 0 ∨ s.consensus = 0 ∨ n < s.consensus)) := by
  unfold ConsensusState.validate_params
  by_cases h1 : s.fail_threshold = 0 <;> by_cases h2 : s.consensus = 0 <;>
    by_cases h3 : n < s.consensus <;> simp [h1, h2, h3]

/-- Claim C10: with `W = 1` a cycle holding two Down metrics for target 1
drives the tally to 2 ≠ `fail_threshold`, so the target is excluded from the
quorum set although it failed in every windowed cycle and `update` returns
`none`, while the per-target deduplicated cycle opens an outage. -/
theorem duplicate_metrics_block_quorum :
    downCount [[mkMetric 1 MetricStatus.down, mkMetric 1 MetricStatus.down]] 1 = 2 ∧
    (ConsensusState.new 1 1 none).fail_threshold <
      downCount [[mkMetric 1 MetricStatus.down, mkMetric 1 MetricStatus.down]] 1 ∧
    (1 : Int) ∉ majorityDown [[mkMetric 1 MetricStatus.down, mkMetric 1 MetricStatus.down]] 1 ∧
    (∀ c ∈ [[mkMetric 1 MetricStatus.down, mkMetric 1 MetricStatus.down]],
      ∃ m ∈ c, m.target_id = 1 ∧ (m.status = MetricStatus.down ∨ m.status = MetricStatus.timeout)) ∧
    ((ConsensusState.new 1 1 none).update
      [mkMetric 1 MetricStatus.down, mkMetric 1 MetricStatus.down] 0).2 = none ∧
    (∃ ev, ((ConsensusState.new 1 1 none).update [mkMetric 1 MetricStatus.down] 0).2 = some ev ∧
      ev.end_time = none ∧ ev.reason = some "consensus_reached" ∧ ev.affected_targets = [1]) := by
  decide

/-- A metric counts as a failure exactly when its status is Down or Timeout. -/
theorem isFail_iff (m : ConnectivityMetric) :
    isFail m = true ↔ (m.status = MetricStatus.down ∨ m.status = MetricStatus.timeout) := by
  simp [isFail]

/-- The tally over a window splits cycle by cycle. -/
theorem downCount_cons (c : List ConnectivityMetric) (rest : List (List ConnectivityMetric)) (t : Int) :
    downCount (c :: rest) t = cycleDown c t + downCount rest t := by
  simp [downCount, failIds, cycleDown, List.count_append]

/-- A target is a key of the tally map exactly when its tally is positive. -/
theorem mem_downKeys (h : List (List ConnectivityMetric)) (t : Int) :
    t ∈ downKeys h ↔ 0 < downCount h t := by
  simp [downKeys, downCount, List.mem_dedup, List.count_pos_iff]

/-- Membership in the quorum set is exactly a tally equal to the window depth. -/
theorem mem_majorityDown (h : List (List ConnectivityMetric)) (W : Nat) (hW : 1 ≤ W) (t : Int) :
    t ∈ majorityDown h W ↔ downCount h t = W := by
  simp only [majorityDown, List.mem_filter, mem_downKeys, beq_iff_eq]
  constructor
  · rintro ⟨_, h2⟩; exact h2
  · intro h2; exact ⟨by omega, h2⟩

/-- A cycle's tally contribution counts its failing metrics for the target. -/
theorem cycleDown_eq_countP (c : List ConnectivityMetric) (t : Int) :
    cycleDown c t = c.countP (fun m => isFail m && (m.target_id == t)) := by
  induction c with
  | nil => rfl
  | cons m rest ih =>
    by_cases hm : isFail m = true <;>
      by_cases ht : m.target_id = t <;>
        simp [cycleDown, cycleFailIds, List.filter_cons, List.countP_cons, List.count_cons,
          hm, ht, cycleDown.eq_1, cycleFailIds.eq_1] at ih ⊢ <;> omega

/-- A cycle contributes to the tally exactly when the target fails in it. -/
theorem cycleDown_pos_iff (c : List ConnectivityMetric) (t : Int) :
    0 < cycleDown c t ↔ cycleFails t c := by
  simp only [cycleDown, List.count_pos_iff, cycleFailIds, List.mem_map, List.mem_filter,
    cycleFails, isFail_iff]
  constructor
  · rintro ⟨m, ⟨hmem, hf⟩, hid⟩
    exact ⟨m, hmem, hid, hf⟩
  · rintro ⟨m, hmem, hid, hf⟩
    exact ⟨m, ⟨hmem, hf⟩, hid⟩

/-- A cycle contributes at most its number of metrics for the target. -/
theorem cycleDown_le_targetCount (c : List ConnectivityMetric) (t : Int) :
    cycleDown c t ≤ (c.filter (fun m => m.target_id == t)).length := by
  rw [cycleDown_eq_countP, ← List.countP_eq_length_filter]
  refine List.countP_mono_left (fun m _ hm => ?_)
  simp only [Bool.and_eq_true] at hm
  exact hm.2

/-- With at most one contribution per cycle the tally is bounded by the window length. -/
theorem downCount_le_length (h : List (List ConnectivityMetric)) (t : Int)
    (hc : ∀ c ∈ h, cycleDown c t ≤ 1) : downCount h t ≤ h.length := by
  induction h with
  | nil => simp [downCount, failIds]
  | cons c rest ih =>
    rw [downCount_cons]
    have h1 := hc c (by simp)
    have h2 := ih (fun d hd => hc d (by simp [hd]))
    simp only [List.length_cons]
    omega

/-- With at most one contribution per cycle, a full tally means every cycle contributes. -/
theorem downCount_eq_length_iff (h : List (List ConnectivityMetric)) (t : Int)
    (hc : ∀ c ∈ h, cycleDown c t ≤ 1) :
    downCount h t = h.length ↔ ∀ c ∈ h, 0 < cycleDown c t := by
  induction h with
  | nil => simp [downCount, failIds]
  | cons c rest ih =>
    rw [downCount_cons]
    have h1 := hc c (by simp)
    have h2 := downCount_le_length rest t (fun d hd => hc d (by simp [hd]))
    have h3 := ih (fun d hd => hc d (by simp [hd]))
    simp only [List.length_cons, List.mem_cons]
    constructor
    · intro he
      have hcd : 0 < cycleDown c t := by omega
      have hrest : downCount rest t = rest.length := by omega
      rintro d (rfl | hd)
      · exact hcd
      · exact h3.mp hrest d hd
    · intro hall
      have hcd : 0 < cycleDown c t := hall c (Or.inl rfl)
      have hrest : downCount rest t = rest.length := h3.mpr (fun d hd => hall d (Or.inr hd))
      omega

/-- Two members of a list of length at most one coincide. -/
theorem eq_of_length_le_one {α : Type} {l : List α} (h : l.length ≤ 1) {a b : α}
    (ha : a ∈ l) (hb : b ∈ l) : a = b := by
  match l, h, ha, hb with
  | [x], _, ha, hb =>
    simp only [List.mem_singleton] at ha hb
    rw [ha, hb]

/-- Claim C2: with `fail_threshold = W ≥ 1` and at most one metric per target
per windowed cycle, the quorum set `M` consists exactly of the targets whose
status is Down or Timeout in every windowed cycle with failure tally equal to
`W`; an Up or Degraded metric in any windowed cycle excludes its target from
`M`; and the window never exceeds `W` cycles, the oldest being dropped before
appending when full. -/
theorem consensus_quorum_set (s : ConsensusState) (cycle : List ConnectivityMetric)
    (hW : 1 ≤ s.fail_threshold) (hlen : s.history.length ≤ s.fail_threshold)
    (hdedup : ∀ c ∈ newHistory s.history s.fail_threshold cycle, ∀ t : Int,
      (c.filter (fun m => m.target_id == t)).length ≤ 1) :
    (newHistory s.history s.fail_threshold cycle).length ≤ s.fail_threshold ∧
    (s.history.length = s.fail_threshold →
      newHistory s.history s.fail_threshold cycle = s.history.drop 1 ++ [cycle]) ∧
    (s.history.length ≠ s.fail_threshold →
      newHistory s.history s.fail_threshold cycle = s.history ++ [cycle]) ∧
    (∀ t : Int, t ∈ majorityDown (newHistory s.history s.fail_threshold cycle) s.fail_threshold ↔
      ((∀ c ∈ newHistory s.history s.fail_threshold cycle, cycleFails t c) ∧
       downCount (newHistory s.history s.fail_threshold cycle) t = s.fail_threshold)) ∧
    (∀ t : Int, ∀ c ∈ newHistory s.history s.fail_threshold cycle, ∀ m ∈ c, m.target_id = t →
      (m.status = MetricStatus.up ∨ m.status = MetricStatus.degraded) →
      t ∉ majorityDown (newHistory s.history s.fail_threshold cycle) s.fail_threshold) := by
  have hcyc1 : ∀ c ∈ newHistory s.history s.fail_threshold cycle, ∀ t : Int, cycleDown c t ≤ 1 :=
    fun c hc t => le_trans (cycleDown_le_targetCount c t) (hdedup c hc t)
  have hA : (newHistory s.history s.fail_threshold cycle).length ≤ s.fail_threshold := by
    simp only [newHistory, List.length_append, List.length_singleton]
    split
    · simp only [List.length_drop]; omega
    · omega
  have hD : ∀ t : Int,
      t ∈ majorityDown (newHistory s.history s.fail_threshold cycle) s.fail_threshold ↔
      ((∀ c ∈ newHistory s.history s.fail_threshold cycle, cycleFails t c) ∧
       downCount (newHistory s.history s.fail_threshold cycle) t = s.fail_threshold) := by
    intro t
    rw [mem_majorityDown _ _ hW]
    constructor
    · intro hcount
      have hle := downCount_le_length (newHistory s.history s.fail_threshold cycle) t
        (fun c hc => hcyc1 c hc t)
      have hall := (downCount_eq_length_iff (newHistory s.history s.fail_threshold cycle) t
        (fun c hc => hcyc1 c hc t)).mp (by omega)
      exact ⟨fun c hc => (cycleDown_pos_iff c t).mp (hall c hc), hcount⟩
    · rintro ⟨_, hcount⟩
      exact hcount
  refine ⟨hA, ?_, ?_, hD, ?_⟩
  · intro he; simp [newHistory, he]
  · intro he; simp [newHistory, he]
  · intro t c hc m hm hid hstat hmem
    obtain ⟨hall, _⟩ := (hD t).mp hmem
    obtain ⟨m2, hm2, hid2, hf2⟩ := hall c hc
    have hmf : m ∈ c.filter (fun m => m.target_id == t) :=
      List.mem_filter.mpr ⟨hm, by simp [hid]⟩
    have hmf2 : m2 ∈ c.filter (fun m => m.target_id == t) :=
      List.mem_filter.mpr ⟨hm2, by simp [hid2]⟩
    have heq : m = m2 := eq_of_length_le_one (hdedup c hc t) hmf hmf2
    rw [heq] at hstat
    rcases hstat with h1 | h1 <;> rcases hf2 with h2 | h2 <;> rw [h1] at h2 <;> cases h2

/-- Witness for C2: a fresh detector with `W = 2` after one all-Down cycle has
a one-cycle window and target 1 outside the quorum set (its tally is 1 ≠ 2). -/
theorem consensus_quorum_set_witness :
    (newHistory [] 2 [mkMetric 1 MetricStatus.down]).length ≤ 2 ∧
    (1 : Int) ∉ majorityDown (newHistory [] 2 [mkMetric 1 MetricStatus.down]) 2 := by
  have hded : ∀ c ∈ newHistory [] 2 [mkMetric 1 MetricStatus.down], ∀ t : Int,
      (c.filter (fun m => m.target_id == t)).length ≤ 1 := by
    intro c hc t
    have h1 : c = [mkMetric 1 MetricStatus.down] := by simpa [newHistory] using hc
    subst h1
    simpa using List.length_filter_le (fun m => m.target_id == t) [mkMetric 1 MetricStatus.down]
  have h := consensus_quorum_set (ConsensusState.new 2 1 none) [mkMetric 1 MetricStatus.down]
    (by decide) (by decide) hded
  refine ⟨h.1, fun hmem => ?_⟩
  obtain ⟨_, hcount⟩ := (h.2.2.2.1 1).mp hmem
  exact absurd hcount (by decide)

/-- Streak accounting: `k` successful updates add `k` to the target's streak
and leave `required_streak` unchanged. -/
theorem afterSuccesses_streak (s : TargetWarmupState) (t : Int) (k : Nat) :
    (afterSuccesses s t k).success_streak t = s.success_streak t + k ∧
    (afterSuccesses s t k).required_streak = s.required_streak := by
  induction k with
  | zero => simp [afterSuccesses]
  | succ k ih =>
    simp only [afterSuccesses, TargetWarmupState.update]
    constructor
    · simp [ih.1]; omega
    · exact ih.2

/-- Claim C7: `update(target_id, is_success)` increments the stored streak on
success (an absent entry counting as 0 first) and resets it to 0 otherwise,
returns `true` iff the resulting streak reaches `required_streak`, and with
`required_streak = R ≥ 1`, after any failure the `(k+1)`-st consecutive
successful update returns `true` iff `k + 1 ≥ R` — `R` consecutive successes
are necessary and sufficient. -/
theorem warmup_update_spec (s : TargetWarmupState) (t : Int) (b : Bool) :
    ((s.update t b).2.success_streak t = (if b then s.success_streak t + 1 else 0)) ∧
    (∀ x, x ≠ t → (s.update t b).2.success_streak x = s.success_streak x) ∧
    ((s.update t b).1 = true ↔ s.required_streak ≤ (s.update t b).2.success_streak t) ∧
    ((s.update t b).2.required_streak = s.required_streak) ∧
    (1 ≤ s.required_streak →
      ∀ k : Nat, (((afterSuccesses (s.update t false).2 t k).update t true).1 = true ↔
        s.required_streak ≤ k + 1)) := by
  refine ⟨by simp [TargetWarmupState.update], ?_, ?_, rfl, ?_⟩
  · intro x hx
    simp [TargetWarmupState.update, hx]
  · simp [TargetWarmupState.update]
  · intro hR k
    have h0 : (s.update t false).2.success_streak t = 0 := by simp [TargetWarmupState.update]
    obtain ⟨hs1, hs2⟩ := afterSuccesses_streak (s.update t false).2 t k
    rw [h0] at hs1
    have h2 : (s.update t false).2.required_streak = s.required_streak := rfl
    rw [h2] at hs2
    generalize hS : afterSuccesses (s.update t false).2 t k = S at hs1 hs2
    simp [TargetWarmupState.update, hs1, hs2]

/-- Witness for C7 at a fresh gate with `required_streak = 3`. -/
theorem warmup_update_spec_witness :
    (((⟨fun x => 0, 3⟩ : TargetWarmupState).update 1 true).2.success_streak 1 = 1) ∧
    (((⟨fun x => 0, 3⟩ : TargetWarmupState).update 1 true).2.success_streak 2 = 0) ∧
    ((((afterSuccesses ((⟨fun x => 0, 3⟩ : TargetWarmupState).update 1 false).2 1 2).update 1
      true).1 = true) ↔ (3 : Nat) ≤ 3) := by
  have h := warmup_update_spec ⟨fun x => 0, 3⟩ 1 true
  refine ⟨by simpa using h.1, by simpa using h.2.1 2 (by decide), ?_⟩
  simpa using h.2.2.2.2 (by decide) 2

/-- The attempt loop counts exactly the successful attempts. -/
theorem runAttempts_success (l : List PingAttempt) (acc : PingTally) :
    (runAttempts acc l).success = acc.success + l.countP isSuccessAttempt := by
  induction l generalizing acc with
  | nil => simp [runAttempts]
  | cons a rest ih =>
    cases a <;>
      simp [runAttempts, stepAttempt, List.countP_cons, ih, isSuccessAttempt] <;> omega

/-- The attempt loop counts exactly the timed-out attempts. -/
theorem runAttempts_timeout (l : List PingAttempt) (acc : PingTally) :
    (runAttempts acc l).timeout_count = acc.timeout_count + l.countP isTimeoutAttempt := by
  induction l generalizing acc with
  | nil => simp [runAttempts]
  | cons a rest ih =>
    cases a <;>
      simp [runAttempts, stepAttempt, List.countP_cons, ih, isTimeoutAttempt] <;> omega

/-- Claim C5: a per-target measurement of `N ≥ 1` attempts with `s` successes
and `t` timeouts (`s + t ≤ N`) classifies Timeout when `t = N`, else Up when
`s = N`, else Degraded when `s > 0`, else Down, and sets
`packet_loss_percent = 100 − ⌊s·100/N⌋`. -/
theorem ping_classification (probe_id target_id : Int) (fam : IpFamily) (cycle_id ts : Int)
    (attempts : List PingAttempt) (N s t : Nat)
    (hN : attempts.length = N) (hpos : 1 ≤ N)
    (hs : attempts.countP isSuccessAttempt = s)
    (ht : attempts.countP isTimeoutAttempt = t)
    (hst : s + t ≤ N) :
    (pingMetricOf probe_id target_id fam cycle_id ts attempts).status =
      (if t = N then MetricStatus.timeout
       else if s = N then MetricStatus.up
       else if 0 < s then MetricStatus.degraded
       else MetricStatus.down) ∧
    (pingMetricOf probe_id target_id fam cycle_id ts attempts).packet_loss_percent =
      some ((100 : Int) - ((s * 100) / N : Nat)) := by
  have hsucc : (runAttempts ⟨0, 0, 0, none⟩ attempts).success = s := by
    rw [runAttempts_success]; simpa using hs
  have htc : (runAttempts ⟨0, 0, 0, none⟩ attempts).timeout_count = t := by
    rw [runAttempts_timeout]; simpa using ht
  constructor
  · simp only [pingMetricOf, hsucc, htc, hN]
  · simp only [pingMetricOf, hsucc, hN]

/-- Witness for C5: two attempts, one success and one timeout, give Degraded
with 50% packet loss. -/
theorem ping_classification_witness :
    ((pingMetricOf 7 1 IpFamily.v4 0 0
        [PingAttempt.success 12, PingAttempt.timedOut "deadline"]).status =
      MetricStatus.degraded) ∧
    ((pingMetricOf 7 1 IpFamily.v4 0 0
        [PingAttempt.success 12, PingAttempt.timedOut "deadline"]).packet_loss_percent =
      some 50) := by
  have h := ping_classification 7 1 IpFamily.v4 0 0
    [PingAttempt.success 12, PingAttempt.timedOut "deadline"] 2 1 1
    (by decide) (by decide) (by decide) (by decide) (by decide)
  refine ⟨?_, ?_⟩
  · rw [h.1]; decide
  · rw [h.2]; decide

/-- Claim C6: a metric produced by the per-target loop of `ping_targets` with
`ping_count = N ≥ 1` and status Up has `response_time_ms` present and
`packet_loss_percent < 100`. -/
theorem ping_up_invariant (probe_id target_id : Int) (fam : IpFamily) (cycle_id ts : Int)
    (attempts : List PingAttempt) (N : Nat) (hN : attempts.length = N) (hpos : 1 ≤ N)
    (hup : (pingMetricOf probe_id target_id fam cycle_id ts attempts).status = MetricStatus.up) :
    (pingMetricOf probe_id target_id fam cycle_id ts attempts).response_time_ms.isSome = true ∧
    (∀ p, (pingMetricOf probe_id target_id fam cycle_id ts attempts).packet_loss_percent = some p →
      p < 100) := by
  by_cases h1 : (runAttempts ⟨0, 0, 0, none⟩ attempts).timeout_count = attempts.length
  · simp only [pingMetricOf, h1, if_pos rfl] at hup
    cases hup
  · by_cases h2 : (runAttempts ⟨0, 0, 0, none⟩ attempts).success = attempts.length
    · have hgt : 0 < (runAttempts ⟨0, 0, 0, none⟩ attempts).success := by omega
      constructor
      · simp [pingMetricOf, hgt]
      · intro p hp
        simp only [pingMetricOf, h2, hN, Option.some.injEq] at hp
        have hdiv : ((N * 100) / N : Nat) = 100 := by
          rw [Nat.mul_comm]
          exact Nat.mul_div_cancel 100 (by omega)
        rw [hdiv] at hp
        omega
    · by_cases h3 : 0 < (runAttempts ⟨0, 0, 0, none⟩ attempts).success
      · simp only [pingMetricOf, h1, h2, h3, if_neg, if_pos, if_false, if_true] at hup
        simp [h1, h2, h3] at hup
      · simp [pingMetricOf, h1, h2, h3] at hup

/-- Witness for C6: a single successful attempt yields an Up metric with a
mean RTT present and 0% packet loss. -/
theorem ping_up_invariant_witness :
    ((pingMetricOf 7 1 IpFamily.v4 0 0 [PingAttempt.success 12]).response_time_ms.isSome = true) ∧
    (∀ p, (pingMetricOf 7 1 IpFamily.v4 0 0 [PingAttempt.success 12]).packet_loss_percent = some p →
      p < 100) := by
  exact ping_up_invariant 7 1 IpFamily.v4 0 0 [PingAttempt.success 12] 1 (by decide) (by decide)
    (by decide)

/-- An all-Up cycle contributes no failing target ids. -/
theorem cycleFailIds_nil_of_allUp (c : List ConnectivityMetric) (hc : cycleAllUp c) :
    cycleFailIds c = [] := by
  simp only [cycleFailIds, List.map_eq_nil_iff]
  rw [List.filter_eq_nil_iff]
  intro m hm
  rw [isFail, hc m hm]
  decide

/-- An all-Up window has an empty failure tally. -/
theorem failIds_nil_of_allUp (h : List (List ConnectivityMetric))
    (hall : ∀ c ∈ h, cycleAllUp c) : failIds h = [] := by
  induction h with
  | nil => rfl
  | cons c rest ih =>
    simp only [failIds, cycleFailIds_nil_of_allUp c (hall c (by simp)),
      ih (fun d hd => hall d (by simp [hd])), List.nil_append]

/-- Window maintenance preserves the all-Up property of the windowed cycles. -/
theorem newHistory_allUp (s : ConsensusState) (c : List ConnectivityMetric)
    (hh : ∀ d ∈ s.history, cycleAllUp d) (hc : cycleAllUp c) :
    ∀ d ∈ newHistory s.history s.fail_threshold c, cycleAllUp d := by
  intro d hd
  rcases List.mem_append.mp hd with h1 | h1
  · split at h1
    · exact hh d (List.mem_of_mem_drop h1)
    · exact hh d h1
  · rw [List.mem_singleton.mp h1]
    exact hc

/-- One `update` on an all-Up state with an all-Up cycle and `Q ≥ 1` emits
nothing and preserves the all-Up invariant. -/
theorem update_allUp_none (s : ConsensusState)
    (hh : ∀ d ∈ s.history, cycleAllUp d) (ho : s.current_outage = none)
    (hQ : 1 ≤ s.consensus) (c : List ConnectivityMetric) (hc : cycleAllUp c) (ts : Int) :
    (s.update c ts).2 = none ∧ (s.update c ts).1.current_outage = none ∧
    (∀ d ∈ (s.update c ts).1.history, cycleAllUp d) ∧
    (s.update c ts).1.consensus = s.consensus := by
  have hnew := newHistory_allUp s c hh hc
  have hmd : majorityDown (newHistory s.history s.fail_threshold c) s.fail_threshold = [] := by
    simp [majorityDown, downKeys, failIds_nil_of_allUp _ hnew]
  have h1 : ¬ s.consensus ≤
      (majorityDown (newHistory s.history s.fail_threshold c) s.fail_threshold).length := by
    rw [hmd]
    simp
    omega
  rw [update_eq_none s c ts h1 ho]
  exact ⟨rfl, ho, hnew, rfl⟩

/-- Generalisation of C8 to any all-Up detector state. -/
theorem runUpdates_allUp (L : List (List ConnectivityMetric × Int)) (s : ConsensusState)
    (hh : ∀ d ∈ s.history, cycleAllUp d) (ho : s.current_outage = none)
    (hQ : 1 ≤ s.consensus) (hall : ∀ p ∈ L, cycleAllUp p.1) :
    ∀ o ∈ runUpdates s L, o = none := by
  induction L generalizing s with
  | nil => simp [runUpdates]
  | cons p rest ih =>
    obtain ⟨c, t⟩ := p
    obtain ⟨e1, e2, e3, e4⟩ := update_allUp_none s hh ho hQ c (hall (c, t) (by simp)) t
    intro o hmem
    simp only [runUpdates, List.mem_cons] at hmem
    rcases hmem with rfl | hmem
    · exact e1
    · exact ih (s.update c t).1 e3 e2 (by rw [e4]; exact hQ)
        (fun q hq => hall q (by simp [hq])) o hmem

/-- Claim C8: a detector with `W ≥ 1`, `Q ≥ 1` fed only cycles whose metrics
all report Up never returns an `OutageEvent`. -/
theorem consensus_all_up_no_event (W Q : Nat) (pid : Option Int)
    (L : List (List ConnectivityMetric × Int)) (hW : 1 ≤ W) (hQ : 1 ≤ Q)
    (hall : ∀ p ∈ L, cycleAllUp p.1) :
    ∀ o ∈ runUpdates (ConsensusState.new W Q pid) L, o = none := by
  exact runUpdates_allUp L (ConsensusState.new W Q pid) (by simp [ConsensusState.new]) rfl hQ hall

/-- Witness for C8: one all-Up cycle on a fresh `W = Q = 1` detector emits
nothing. -/
theorem consensus_all_up_no_event_witness :
    runUpdates (ConsensusState.new 1 1 none) [([mkMetric 1 MetricStatus.up], 0)] = [none] := by
  have h := consensus_all_up_no_event 1 1 none [([mkMetric 1 MetricStatus.up], 0)]
    (by decide) (by decide)
    (by
      intro p hp m hm
      simp only [List.mem_singleton] at hp
      subst hp
      simp only [List.mem_singleton] at hm
      subst hm
      rfl)
  have h1 := h ((ConsensusState.new 1 1 none).update [mkMetric 1 MetricStatus.up] 0).2
    (by simp [runUpdates])
  simp only [runUpdates, h1]

/-- Counterexample to C4 as stated: a `WaitingForInternet` tick whose prober
returns a non-empty metric vector issues no `insert_connectivity_metric`
call — the branch in `scheduler.rs` never persists the collected metrics. -/
theorem waiting_tick_no_metric_persist :
    (pingTargets [⟨1, IpFamily.v4⟩] ⟨7⟩ (fun x => [PingAttempt.timedOut "deadline"]) 0 0 ≠ []) ∧
    ((waitingTick [⟨1, IpFamily.v4⟩] ⟨7⟩ (fun x => [PingAttempt.timedOut "deadline"]) 0
      (ConsensusState.new 2 1 none) ⟨[], []⟩).2.metricInserts = []) := by
  decide

/-- Claim C4 (amended): on every `WaitingForInternet` tick the prober runs
over the full target list, the resulting metric vector is fed to the
consensus detector, and any emitted `OutageEvent` is persisted; the metric
vector itself is not persisted in this state. -/
theorem waiting_tick_spec (targets : List Target) (probe : Probe)
    (attemptsOf : Int → List PingAttempt) (ts : Int) (cs : ConsensusState) (store : StoreLog) :
    ((waitingTick targets probe attemptsOf ts cs store).1 =
      (cs.update (pingTargets targets probe attemptsOf 0 ts) ts).1) ∧
    ((waitingTick targets probe attemptsOf ts cs store).2.metricInserts = store.metricInserts) ∧
    (∀ ev, (cs.update (pingTargets targets probe attemptsOf 0 ts) ts).2 = some ev →
      (waitingTick targets probe attemptsOf ts cs store).2.outageInserts =
        store.outageInserts ++ [ev]) ∧
    ((cs.update (pingTargets targets probe attemptsOf 0 ts) ts).2 = none →
      (waitingTick targets probe attemptsOf ts cs store).2.outageInserts =
        store.outageInserts) := by
  cases ho : (cs.update (pingTargets targets probe attemptsOf 0 ts) ts).2 with
  | none =>
    refine ⟨?_, ?_, ?_, ?_⟩ <;> simp [waitingTick, ho]
  | some ev =>
    refine ⟨?_, ?_, ?_, ?_⟩ <;> simp [waitingTick, ho]

/-- Witness for C4: a tick whose single Timeout metric opens an outage on a
`W = Q = 1` detector logs exactly that outage insert and no metric insert. -/
theorem waiting_tick_spec_witness :
    ((waitingTick [⟨1, IpFamily.v4⟩] ⟨7⟩ (fun x => [PingAttempt.timedOut "deadline"]) 0
      (ConsensusState.new 1 1 none) ⟨[], []⟩).2.metricInserts = []) ∧
    ((waitingTick [⟨1, IpFamily.v4⟩] ⟨7⟩ (fun x => [PingAttempt.timedOut "deadline"]) 0
      (ConsensusState.new 1 1 none) ⟨[], []⟩).2.outageInserts =
      [] ++ [(openEvent (ConsensusState.new 1 1 none)
        (newHistory [] 1 (pingTargets [⟨1, IpFamily.v4⟩] ⟨7⟩
          (fun x => [PingAttempt.timedOut "deadline"]) 0 0))
        (majorityDown (newHistory [] 1 (pingTargets [⟨1, IpFamily.v4⟩] ⟨7⟩
          (fun x => [PingAttempt.timedOut "deadline"]) 0 0)) 1) 0)]) := by
  have h := waiting_tick_spec [⟨1, IpFamily.v4⟩] ⟨7⟩ (fun x => [PingAttempt.timedOut "deadline"]) 0
    (ConsensusState.new 1 1 none) ⟨[], []⟩
  refine ⟨h.2.1, ?_⟩
  exact h.2.2.1 _ (by decide)

/-- Running a concatenated input sequence composes the detector states. -/
theorem stateAfter_append (s : ConsensusState) (L1 L2 : List (List ConnectivityMetric × Int)) :
    stateAfter s (L1 ++ L2) = stateAfter (stateAfter s L1) L2 := by
  induction L1 generalizing s with
  | nil => rfl
  | cons p rest ih =>
    obtain ⟨c, t⟩ := p
    simp only [List.cons_append, stateAfter]
    exact ih (s.update c t).1

/-- While an outage is open, any emission of `update` is its close. -/
theorem first_emission_is_close (s : ConsensusState) (e : OutageEvent)
    (c : List ConnectivityMetric) (t : Int) (ev : OutageEvent)
    (ho : s.current_outage = some e) (hemit : (s.update c t).2 = some ev) :
    ev = closeEvent e t := by
  by_cases h1 : s.consensus ≤
      (majorityDown (newHistory s.history s.fail_threshold c) s.fail_threshold).length
  · rw [update_eq_skip s c t e h1 ho] at hemit
    cases hemit
  · rw [update_eq_close s c t e h1 ho] at hemit
    exact (Option.some.inj hemit).symm

/-- An emission without `end_time` comes from the open branch: no outage was
open, the event is stored, and it carries the call timestamp and the
`consensus_reached` reason. -/
theorem open_emission (s : ConsensusState) (c : List ConnectivityMetric) (t : Int)
    (ev : OutageEvent) (hemit : (s.update c t).2 = some ev) (hopen : ev.end_time = none) :
    s.current_outage = none ∧ (s.update c t).1.current_outage = some ev ∧
    ev.start_time = t ∧ ev.reason = some "consensus_reached" := by
  cases ho : s.current_outage with
  | some e =>
    have hc := first_emission_is_close s e c t ev ho hemit
    rw [hc] at hopen
    simp [closeEvent] at hopen
  | none =>
    by_cases h1 : s.consensus ≤
        (majorityDown (newHistory s.history s.fail_threshold c) s.fail_threshold).length
    · rw [update_eq_open s c t h1 ho] at hemit
      have heq : openEvent s (newHistory s.history s.fail_threshold c)
          (majorityDown (newHistory s.history s.fail_threshold c) s.fail_threshold) t = ev :=
        Option.some.inj hemit
      refine ⟨rfl, ?_, ?_, ?_⟩
      · rw [update_eq_open s c t h1 ho]
        simp [heq]
      · rw [← heq]; rfl
      · rw [← heq]; rfl
    · rw [update_eq_none s c t h1 ho] at hemit
      cases hemit

/-- Updates that emit nothing keep the stored open outage unchanged. -/
theorem runUpdates_none_outage (B : List (List ConnectivityMetric × Int)) (s : ConsensusState)
    (e : OutageEvent) (ho : s.current_outage = some e)
    (hnone : ∀ o ∈ runUpdates s B, o = none) :
    (stateAfter s B).current_outage = some e := by
  induction B generalizing s with
  | nil => simpa [stateAfter] using ho
  | cons p rest ih =>
    obtain ⟨c, t⟩ := p
    have h0 : (s.update c t).2 = none := hnone _ (by simp [runUpdates])
    by_cases h1 : s.consensus ≤
        (majorityDown (newHistory s.history s.fail_threshold c) s.fail_threshold).length
    · have ho2 : (s.update c t).1.current_outage = some e := by
        rw [update_eq_skip s c t e h1 ho]
        exact ho
      simp only [stateAfter]
      exact ih (s.update c t).1 ho2 (fun o hm => hnone o (by simp [runUpdates, hm]))
    · rw [update_eq_close s c t e h1 ho] at h0
      cases h0

/-- Claim C3 (amended): over any update sequence with non-decreasing cycle
timestamps, after an update emits an open event (reason
`"consensus_reached"`, no `end_time`), the next update that emits anything
emits the close of that event: `end_time` set to that call's timestamp,
`end_time ≥ start_time`, and reason still `"consensus_reached"` — the code
never relabels the close `"consensus_loss"`. -/
theorem consensus_reached_next_emission (s0 : ConsensusState)
    (A B C : List (List ConnectivityMetric × Int)) (ci : List ConnectivityMetric) (ti : Int)
    (cj : List ConnectivityMetric) (tj : Int) (ev ev2 : OutageEvent)
    (hts : List.Pairwise (· ≤ ·) ((A ++ (ci, ti) :: (B ++ (cj, tj) :: C)).map Prod.snd))
    (hopen : ((stateAfter s0 A).update ci ti).2 = some ev)
    (hev : ev.end_time = none)
    (hnone : ∀ o ∈ runUpdates (stateAfter s0 (A ++ [(ci, ti)])) B, o = none)
    (hemit : ((stateAfter s0 (A ++ (ci, ti) :: B)).update cj tj).2 = some ev2) :
    ev2.end_time = some tj ∧ ev2.start_time = ti ∧ ev2.start_time ≤ tj ∧
    ev2.reason = some "consensus_reached" := by
  obtain ⟨hno, hstore, hstart, hreason⟩ := open_emission _ ci ti ev hopen hev
  have hS : (stateAfter s0 (A ++ [(ci, ti)])).current_outage = some ev := by
    rw [stateAfter_append]
    exact hstore
  have hmid : (stateAfter s0 (A ++ (ci, ti) :: B)).current_outage = some ev := by
    have hsplit : A ++ (ci, ti) :: B = (A ++ [(ci, ti)]) ++ B := by simp
    rw [hsplit, stateAfter_append]
    exact runUpdates_none_outage B _ ev hS hnone
  have hclose : ev2 = closeEvent ev tj := first_emission_is_close _ ev cj tj ev2 hmid hemit
  have hle : ti ≤ tj := by
    have hsub : List.Sublist [ti, tj]
        ((A ++ (ci, ti) :: (B ++ (cj, tj) :: C)).map Prod.snd) := by
      rw [List.map_append, List.map_cons, List.map_append, List.map_cons]
      refine List.Sublist.trans ?_ (List.sublist_append_right (A.map Prod.snd) _)
      refine List.Sublist.cons₂ ti ?_
      refine List.Sublist.trans ?_ (List.sublist_append_right (B.map Prod.snd) _)
      exact List.Sublist.cons₂ tj (List.nil_sublist _)
    have hp := hts.sublist hsub
    rw [List.pairwise_cons] at hp
    exact hp.1 tj (by simp)
  rw [hclose]
  refine ⟨rfl, hstart, ?_, ?_⟩
  · rw [show (closeEvent ev tj).start_time = ev.start_time from rfl, hstart]
    exact hle
  · rw [show (closeEvent ev tj).reason = ev.reason from rfl]
    exact hreason

/-- Counterexample to C3 as stated: after the `consensus_reached` emission of
a fresh `W = Q = 1` detector, the next emission closes the event with
`end_time` set but its reason tag is `"consensus_reached"`, not the claimed
`"consensus_loss"`. -/
theorem consensus_close_not_relabelled :
    ((runUpdates (ConsensusState.new 1 1 none)
        [([mkMetric 1 MetricStatus.down], 0), ([mkMetric 1 MetricStatus.up], 5000)]).map
      (fun o => o.map (fun ev => (ev.reason, ev.end_time, ev.start_time))) =
      [some (some "consensus_reached", none, 0),
       some (some "consensus_reached", some 5000, 0)]) ∧
    ((runUpdates (ConsensusState.new 1 1 none)
        [([mkMetric 1 MetricStatus.down], 0), ([mkMetric 1 MetricStatus.up], 5000)]).map
      (fun o => o.map OutageEvent.reason) ≠
      [some (some "consensus_reached"), some (some "consensus_loss")]) := by
  decide

/-- Witness for C3: the concrete two-cycle run instantiating the amended
theorem with its literal open and close events. -/
theorem consensus_reached_next_emission_witness :
    ((closeEvent ⟨0, 0, none, none, some "consensus_reached", [1], none, some 1,
        some ⟨1, 1, 1, [(1, 1)]⟩⟩ 5000).end_time = some 5000) ∧
    ((closeEvent ⟨0, 0, none, none, some "consensus_reached", [1], none, some 1,
        some ⟨1, 1, 1, [(1, 1)]⟩⟩ 5000).start_time = 0) ∧
    ((closeEvent (⟨0, 0, none, none, some "consensus_reached", [1], none, some 1,
        some ⟨1, 1, 1, [(1, 1)]⟩⟩ : OutageEvent) 5000).start_time ≤ 5000) ∧
    ((closeEvent (⟨0, 0, none, none, some "consensus_reached", [1], none, some 1,
        some ⟨1, 1, 1, [(1, 1)]⟩⟩ : OutageEvent) 5000).reason = some "consensus_reached") := by
  exact consensus_reached_next_emission (ConsensusState.new 1 1 none) [] [] []
    [mkMetric 1 MetricStatus.down] 0 [mkMetric 1 MetricStatus.up] 5000
    ⟨0, 0, none, none, some "consensus_reached", [1], none, some 1, some ⟨1, 1, 1, [(1, 1)]⟩⟩
    (closeEvent ⟨0, 0, none, none, some "consensus_reached", [1], none, some 1,
      some ⟨1, 1, 1, [(1, 1)]⟩⟩ 5000)
    (by decide) (by decide) (by decide) (by simp [runUpdates]) (by decide)
